import Mathlib

/-!
Verification of the Glosentra concurrent inference-serving and
asynchronous-telemetry subsystem.

The development shallowly embeds the core Python modules:
  * `core/db.py`          — `AnalyticsDB`: bounded(-intent) write queue, background
                            batch writer, and the `get_stats` aggregate query;
  * `services/analytics.py` — `AnalyticsService.log_inference_run`;
  * `core/model_registry.py` — `ModelRegistry`: lock-guarded lazy model loading;
  * `core/inference.py`   — `InferenceEngine`: decode → infer → postprocess
                            pipeline, classify top-5 postprocessing, and
                            `run_async` timeout behaviour.

Machine reals (Python floats) are modelled as `ℚ`; model handles as `Nat`;
fallible library calls (`PIL.Image.open`, `cv2.imdecode`, `YOLO(path)`) as
environment functions returning `Option`.  The dedicated writer thread is
modelled by its loop body acting on an explicit queue/database state, and the
lock-guarded registry by an interleaving step relation.
-/

namespace Glosentra

/-! ## Telemetry data model (`core/db.py`)

A queued write is the dict `{'table': ..., 'data': {...}}` built by
`log_inference` / `log_model_usage`; we model the two shapes as a sum.  The
`timing` argument of `log_inference` is a dict that may lack keys, read with
`timing.get(key, 0)`. -/

/-- Row shape of the `inference_runs` table, as inserted by
`_execute_batch_write`. -/
structure InfRow where
  task : String
  model_path : String
  inference_time_ms : ℚ
  total_time_ms : ℚ
  fps : ℚ
  success : Bool
  error_message : Option String
  image_size_bytes : Nat
deriving DecidableEq, Repr

/-- Row shape of the `model_usage` table. -/
structure UsageRow where
  task : String
  model_path : String
deriving DecidableEq, Repr

/-- A queued write item: the tagged dict put on `_write_queue`. -/
inductive WriteItem where
  | infRun (d : InfRow)
  | usage (d : UsageRow)
deriving DecidableEq, Repr

/-- The `timing` dict passed to `log_inference`; keys may be absent. -/
structure Timing where
  inference_ms : Option ℚ := none
  total_ms : Option ℚ := none
  fps : Option ℚ := none
deriving DecidableEq, Repr

/-- The row `log_inference` builds from its arguments (`timing.get(k, 0)`
defaults each missing timing key to 0). -/
def mkInfRow (task model_path : String) (timing : Timing) (success : Bool)
    (error_message : Option String) (image_size : Nat) : InfRow :=
  { task := task
    model_path := model_path
    inference_time_ms := timing.inference_ms.getD 0
    total_time_ms := timing.total_ms.getD 0
    fps := timing.fps.getD 0
    success := success
    error_message := error_message
    image_size_bytes := image_size }

/-- `AnalyticsDB.log_inference`: drops the write when `qsize() > 1000`,
otherwise puts it on the (unbounded) queue.  `Queue.put` on an unbounded
queue never blocks, so the `timeout=0.1` path never fires. -/
def log_inference (q : List WriteItem) (task model_path : String) (timing : Timing)
    (success : Bool) (error_message : Option String) (image_size : Nat) :
    List WriteItem :=
  if q.length > 1000 then q
  else q ++ [.infRun (mkInfRow task model_path timing success error_message image_size)]

/-- `AnalyticsDB.log_model_usage`: puts unconditionally (no capacity check). -/
def log_model_usage (q : List WriteItem) (task model_path : String) : List WriteItem :=
  q ++ [.usage ⟨task, model_path⟩]

/-- Durable state: the two SQLite tables. -/
structure DBState where
  inference_runs : List InfRow
  model_usage : List UsageRow
deriving DecidableEq, Repr

/-- One INSERT of `_execute_batch_write`, dispatched on the item's `table` tag. -/
def apply_write (db : DBState) : WriteItem → DBState
  | .infRun d => { db with inference_runs := db.inference_runs ++ [d] }
  | .usage d => { db with model_usage := db.model_usage ++ [d] }

/-- `AnalyticsDB._execute_batch_write`: all inserts run inside one connection
with one commit; an exception anywhere rolls the whole transaction back, so a
batch is applied all-or-nothing.  `ok` models whether SQLite raised. -/
def execute_batch_write (ok : Bool) (db : DBState) (writes : List WriteItem) : DBState :=
  if ok then writes.foldl apply_write db else db

/-- One iteration of `AnalyticsDB._background_writer`: wait (≤ 1 s) for a first
item — on `Empty` the loop just continues — then greedily `get_nowait` further
items up to a batch of 100, then write the batch in one transaction. -/
def background_writer_step (ok : Bool) (q : List WriteItem) (db : DBState) :
    List WriteItem × DBState :=
  match q with
  | [] => ([], db)
  | _ => (q.drop 100, execute_batch_write ok db (q.take 100))

/-- The writer loop run over a sequence of per-batch transaction outcomes. -/
def background_writer_run (oks : List Bool) (q : List WriteItem) (db : DBState) :
    List WriteItem × DBState :=
  oks.foldl (fun s ok => background_writer_step ok s.1 s.2) (q, db)

/-! ## Read-side aggregates (`AnalyticsDB.get_stats`) -/

/-- Round to two decimals, `round(x, 2)`. -/
def round2 (x : ℚ) : ℚ := (round (100 * x) : ℤ) / 100

/-- SQL `AVG` over the listed values followed by `or 0` (`NULL` on an empty
set becomes 0). -/
def listAvg (l : List ℚ) : ℚ := if l.isEmpty then 0 else l.sum / l.length

/-- Scalar fields of the dict returned by `get_stats`. -/
structure Stats where
  total_runs : Nat
  success_rate : ℚ
  avg_fps : ℚ
  avg_inference_time_ms : ℚ
deriving DecidableEq, Repr

/-- One entry of the `task_stats` dict. -/
structure TaskStat where
  count : Nat
  avg_fps : ℚ
deriving DecidableEq, Repr

/-- `AnalyticsDB.get_stats`, scalar part, with each SQL query translated over
the stored rows: `COUNT(*)`; `COUNT(*) WHERE success = 1`;
`AVG(fps) WHERE success = 1 AND fps > 0`;
`AVG(inference_time_ms) WHERE success = 1`. -/
def get_stats (rows : List InfRow) : Stats :=
  let total_runs := rows.length
  let success_runs := (rows.filter (·.success)).length
  let success_rate : ℚ :=
    if total_runs > 0 then (success_runs : ℚ) / (total_runs : ℚ) * 100 else 0
  let avg_fps := listAvg ((rows.filter (fun r => r.success && decide (0 < r.fps))).map (·.fps))
  let avg_inference_time := listAvg ((rows.filter (·.success)).map (·.inference_time_ms))
  { total_runs := total_runs
    success_rate := round2 success_rate
    avg_fps := round2 avg_fps
    avg_inference_time_ms := round2 avg_inference_time }

/-- The `task_stats` dict of `get_stats`:
`SELECT task, COUNT(*), AVG(fps) FROM inference_runs WHERE success = 1 GROUP BY task`;
a task is a key iff it has at least one successful row (no rounding here). -/
def get_task_stats (rows : List InfRow) (task : String) : Option TaskStat :=
  let g := rows.filter (fun r => r.success && r.task == task)
  if g.isEmpty then none
  else some ⟨g.length, listAvg (g.map (·.fps))⟩

/-! ## Analytics facade (`services/analytics.py`) -/

/-- `AnalyticsService.log_inference_run`: always calls `db.log_inference`, and
additionally calls `db.log_model_usage` iff `success`. -/
def log_inference_run (q : List WriteItem) (task model_path : String) (timing : Timing)
    (success : Bool) (error_message : Option String) (image_size : Nat) :
    List WriteItem :=
  let q1 := log_inference q task model_path timing success error_message image_size
  if success then log_model_usage q1 task model_path else q1

/-! ## Model registry (`core/model_registry.py`)

`ModelRegistry.get_model` holds `_model_lock` for its whole body (the
membership check, `_load_model`, and the final `_models.get(task)`), so the
lock serializes complete calls.  Model handles are abstracted as `Nat`; the
`YOLO(path)` constructor is an environment function returning `none` when it
raises.  `_models` is modelled as an association list (first match wins,
matching dict assignment for a key that was absent). -/

/-- Default artifact identifiers, `default_map.get(task, 'yolo11n.pt')`. -/
def default_map (task : String) : String :=
  if task == "detect" then "yolo11n.pt"
  else if task == "segment" then "yolo11n-seg.pt"
  else if task == "classify" then "yolo11n-cls.pt"
  else if task == "pose" then "yolo11n-pose.pt"
  else "yolo11n.pt"

/-- Environment of `_load_model`: `MODEL_PATHS` config, `Path(p).exists()`,
and the `YOLO(path)` constructor (`none` = it raised). -/
structure RegistryEnv where
  model_paths : String → Option String
  path_exists : String → Bool
  load : String → Option Nat

/-- Resolution of the model path in `_load_model`:
`if not model_path or not Path(model_path).exists(): model_path = default`. -/
def resolve_model_path (env : RegistryEnv) (task : String) : String :=
  match env.model_paths task with
  | some p => if p == "" then default_map task
              else if env.path_exists p then p else default_map task
  | none => default_map task

/-- `ModelRegistry._load_model`: try the resolved path; on failure try the
default artifact; if both raise, the store is left unchanged (the failure is
not cached). -/
def load_model (env : RegistryEnv) (models : List (String × Nat)) (task : String) :
    List (String × Nat) :=
  match env.load (resolve_model_path env task) with
  | some m => (task, m) :: models
  | none =>
    match env.load (default_map task) with
    | some m => (task, m) :: models
    | none => models

/-- The sequence of artifact paths `_load_model` passes to `YOLO(...)`. -/
def load_attempts (env : RegistryEnv) (task : String) : List String :=
  match env.load (resolve_model_path env task) with
  | some _ => [resolve_model_path env task]
  | none => [resolve_model_path env task, default_map task]

/-- `ModelRegistry.get_model` body (executed under `_model_lock`): load if the
task is absent, then return `_models.get(task)` together with the updated
store. -/
def get_model (env : RegistryEnv) (models : List (String × Nat)) (task : String) :
    List (String × Nat) × Option Nat :=
  let models' :=
    match models.lookup task with
    | some _ => models
    | none => load_model env models task
  (models', models'.lookup task)

/-- The `YOLO(...)` attempts performed by one `get_model` call. -/
def get_model_attempts (env : RegistryEnv) (models : List (String × Nat))
    (task : String) : List String :=
  match models.lookup task with
  | some _ => []
  | none => load_attempts env task

/-- Number of `_load_model` invocations a `get_model` call performs on the
given store (0 when the task is already loaded, else 1). -/
def load_invocations (models : List (String × Nat)) (task : String) : Nat :=
  match models.lookup task with
  | some _ => 0
  | none => 1

/-! ### Interleaved callers of `get_model`

N threads concurrently call `get_model` for the same task.  Every access a
thread makes to the shared store happens while it holds `_model_lock`, so the
whole body runs as one critical section; the step relation below therefore
lets a thread (1) acquire the free lock and (2) atomically execute the body
and release.  `load_count` counts `_load_model` invocations. -/

/-- Progress of one caller thread. -/
inductive Phase where
  | start
  | critical
  | finished (r : Option Nat)
deriving DecidableEq, Repr

/-- Whether a thread has returned from `get_model`. -/
def Phase.isFinished : Phase → Bool
  | .finished _ => true
  | _ => false

/-- Shared state of the registry plus the N caller threads. -/
structure RegState (n : Nat) where
  lock_holder : Option (Fin n)
  models : List (String × Nat)
  load_count : Nat
  phase : Fin n → Phase

/-- Initial state: lock free, empty store, no loads, every caller about to
call `get_model`. -/
def RegState.init (n : Nat) : RegState n :=
  ⟨none, [], 0, fun _ => .start⟩

/-- Interleaving semantics of N concurrent `get_model (task)` calls. -/
inductive RegStep (env : RegistryEnv) (task : String) {n : Nat} :
    RegState n → RegState n → Prop
  | acquire (i : Fin n) (s : RegState n)
      (hp : s.phase i = .start) (hl : s.lock_holder = none) :
      RegStep env task s
        ⟨some i, s.models, s.load_count, Function.update s.phase i .critical⟩
  | run (i : Fin n) (s : RegState n)
      (hp : s.phase i = .critical) (hl : s.lock_holder = some i) :
      RegStep env task s
        ⟨none, (get_model env s.models task).1,
         s.load_count + load_invocations s.models task,
         Function.update s.phase i (.finished (get_model env s.models task).2)⟩

/-- Reachability along caller steps. -/
def RegReaches (env : RegistryEnv) (task : String) {n : Nat}
    (s t : RegState n) : Prop :=
  Relation.ReflTransGen (RegStep env task) s t

/-- All N callers have returned. -/
def AllDone {n : Nat} (s : RegState n) : Prop :=
  ∀ i, (s.phase i).isFinished = true

/-- Threads that have returned. -/
def doneSet {n : Nat} (s : RegState n) : Finset (Fin n) :=
  Finset.univ.filter (fun i => (s.phase i).isFinished = true)

/-! ## Inference engine (`core/inference.py`)

Image bytes are `List Nat`; a decoded in-memory image is characterized by its
channel count and channel order (the properties the decode contract is about).
`PIL.Image.open`, `cv2.imdecode` and the loaded model's `predict` are
environment functions. -/

/-- Channel order of an in-memory image array. -/
inductive ChannelOrder where
  | rgb
  | bgr
  | other
deriving DecidableEq, Repr

/-- A decoded numpy image: channel count and channel order. -/
structure NpImage where
  channels : Nat
  order : ChannelOrder
deriving DecidableEq, Repr

/-- One detection of `result.boxes`: `xyxy` coordinates, confidence, class id. -/
structure Box where
  xyxy : List ℚ
  conf : ℚ
  cls : Nat
deriving DecidableEq, Repr

/-- One element of the `results` list returned by `model.predict`.  `names` is
modelled total: the YOLO names table maps every class id of the model (so the
`names.get(idx, ...)` default of the classify branch never fires). -/
structure YoloResult where
  boxes : Option (List Box) := none
  masks : Option (List (List ℚ)) := none
  keypoints : Option (List (List (ℚ × ℚ))) := none
  probs : Option (List ℚ) := none
  names : Nat → String := fun idx => "class_" ++ toString idx

/-- Environment of the engine: the two decoders, the registry, the model. -/
structure InferEnv where
  pil_open : List Nat → Option String
  cv_imdecode : List Nat → Option NpImage
  registry_get : String → Option Nat
  predict : Nat → NpImage → ℚ → ℚ → List YoloResult

/-- Conversion `np.array(image)` for a PIL image of the given mode; an
RGB-mode image yields a 3-channel RGB array (the only case `_decode_image`
reaches, since it converts to RGB first). -/
def np_array_of_mode (mode : String) : NpImage :=
  if mode == "RGB" then ⟨3, .rgb⟩ else ⟨1, .other⟩

/-- Conversion `cv2.cvtColor(image, cv2.COLOR_BGR2RGB)`: same channel count,
channel order swapped to RGB. -/
def cvt_color_bgr2rgb (image : NpImage) : NpImage :=
  ⟨image.channels, .rgb⟩

/-- `InferenceEngine._decode_image`: try PIL (converting any non-RGB mode to
RGB before `np.array`), then OpenCV `imdecode` + BGR→RGB, else raise
`ValueError('Failed to decode image')`. -/
def decode_image (env : InferEnv) (image_bytes : List Nat) : Except String NpImage :=
  match env.pil_open image_bytes with
  | some mode =>
    .ok (np_array_of_mode (if mode == "RGB" then mode else "RGB"))
  | none =>
    match env.cv_imdecode image_bytes with
    | some image => .ok (cvt_color_bgr2rgb image)
    | none => .error "Failed to decode image"

/-- One entry of the classify `predictions` list. -/
structure ClassPred where
  class_id : Nat
  confidence : ℚ
  class_name : String
deriving DecidableEq, Repr

/-- Fields of the `output` dict of `_process_results`; dict keys that are set
only on some paths are `Option`s. -/
structure Output where
  classes : List Nat := []
  confidences : List ℚ := []
  boxes : Option (List (List ℚ)) := none
  masks : Option (List (List ℚ)) := none
  class_names : Option (List String) := none
  keypoints : Option (List (List (ℚ × ℚ))) := none
  predictions : Option (List ClassPred) := none

/-- Ascending comparison of the stable realization of `np.argsort(probs)`:
value order with ties resolved by index order.  numpy guarantees this tie
order only below its insertion-sort threshold (where its introsort runs a
stable insertion sort — e.g. the 6-element array of the C7 counterexample);
for larger arrays the default `kind='quicksort'` leaves the order of equal
values implementation-defined.  Tie-order-independent facts are therefore
stated over the documented contract `IsNpArgsort` below, not over this
concrete realization. -/
def argsort_le (v : Nat → ℚ) (i j : Nat) : Prop :=
  v i < v j ∨ (v i = v j ∧ i ≤ j)

instance (v : Nat → ℚ) : DecidableRel (argsort_le v) := fun i j => by
  dsimp [argsort_le]; infer_instance

/-- Index permutation `np.argsort(probs)` — the stable realization (exact in
numpy's small-array insertion-sort regime; one admissible outcome
otherwise). -/
def argsort (probs : List ℚ) : List Nat :=
  List.insertionSort (argsort_le (fun i => probs.getD i 0)) (List.range probs.length)

/-- Index slice `np.argsort(probs)[-5:][::-1]` of the stable realization. -/
def top5_idx (probs : List ℚ) : List Nat :=
  ((argsort probs).drop (probs.length - 5)).reverse

/-- `InferenceEngine._process_results`. -/
def process_results (results : List YoloResult) (task : String) : Output :=
  match results with
  | [] => { boxes := some [], masks := some [], classes := [], confidences := [] }
  | result :: _ =>
    let o0 : Output := {}
    let o1 :=
      if task == "detect" || task == "segment" || task == "pose" then
        match result.boxes with
        | some bs =>
          { o0 with
            boxes := some (bs.map (·.xyxy))
            confidences := bs.map (·.conf)
            classes := bs.map (·.cls)
            class_names := some (bs.map (fun b => result.names b.cls)) }
        | none => o0
      else o0
    let o2 :=
      if task == "segment" then
        match result.masks with
        | some ms => { o1 with masks := some ms }
        | none => o1
      else o1
    let o3 :=
      if task == "pose" then
        match result.keypoints with
        | some ks => { o2 with keypoints := some ks }
        | none => o2
      else o2
    if task == "classify" then
      match result.probs with
      | some probs =>
        { o3 with
          predictions := some ((top5_idx probs).map (fun idx =>
            ⟨idx, probs.getD idx 0, result.names idx⟩)) }
      | none => o3
    else o3

/-- Pipeline stages of `run_inference`. -/
inductive Stage where
  | decode
  | infer
  | post
deriving DecidableEq, Repr

/-- The dict returned by `run_inference` (timing fields, which depend on wall
clocks, are not modelled). -/
structure InfResult where
  success : Bool
  predictions : Option Output
  error : Option String
  task : String

/-- Result of `run_inference` instrumented with the stages that executed and
the `(imgsz, conf)` pair passed to `model.predict`, when reached. -/
structure RunTrace where
  result : InfResult
  stages : List Stage
  predict_args : Option (ℚ × ℚ)

/-- The `kwargs` of `run_inference`; keys may be absent. -/
structure Kwargs where
  imgsz : Option ℚ := none
  conf : Option ℚ := none

/-- `InferenceEngine.run_inference`: decode, look up the model (raising — and
catching — `No model available` when absent), `model.predict` with
`kwargs.get('imgsz', 640)` and `kwargs.get('conf', 0.25)`, postprocess.  Every
exception is caught and converted to a `success: False` dict. -/
def run_inference (env : InferEnv) (task : String) (image_bytes : List Nat)
    (kwargs : Kwargs) : RunTrace :=
  match decode_image env image_bytes with
  | .error e => ⟨⟨false, none, some e, task⟩, [.decode], none⟩
  | .ok image =>
    match env.registry_get task with
    | none =>
      ⟨⟨false, none, some ("No model available for task: " ++ task), task⟩,
       [.decode], none⟩
    | some model =>
      let imgsz := kwargs.imgsz.getD 640
      let conf := kwargs.conf.getD 0.25
      let results := env.predict model image imgsz conf
      let preds := process_results results task
      ⟨⟨true, some preds, none, task⟩, [.decode, .infer, .post], some (imgsz, conf)⟩

/-- Default of the `timeout` parameter of `run_async`. -/
def default_timeout : ℚ := 30

/-- Outcome of `run_async`: what the caller receives, and the result the
pooled worker computes.  `run_async` performs no cancellation — on timeout the
submitted `run_inference` call still runs to completion; its result is simply
never returned to the caller. -/
structure AsyncOutcome where
  caller_result : InfResult
  worker_result : InfResult

/-- `InferenceEngine.run_async`: submit `run_inference` to the pool and wait
up to `timeout` for it; `duration` is the worker's execution time.  On
`TimeoutError` the caller gets the timeout dict. -/
def run_async (env : InferEnv) (task : String) (image_bytes : List Nat)
    (kwargs : Kwargs) (timeout : ℚ) (duration : ℚ) : AsyncOutcome :=
  let w := (run_inference env task image_bytes kwargs).result
  if duration ≤ timeout then ⟨w, w⟩
  else ⟨⟨false, none, some "Inference timeout", task⟩, w⟩

/-! ## Telemetry operation sequences (claims C3, C10) -/

/-- An enqueue operation against the sink. -/
inductive TelemetryOp where
  | opInf (task model_path : String) (timing : Timing) (success : Bool)
      (error_message : Option String) (image_size : Nat)
  | opUsage (task model_path : String)

/-- Whether an operation is a `log_inference` call. -/
def TelemetryOp.isInf : TelemetryOp → Bool
  | .opInf .. => true
  | .opUsage .. => false

/-- Effect of one enqueue operation on the queue. -/
def apply_op (q : List WriteItem) : TelemetryOp → List WriteItem
  | .opInf task mp timing success err size => log_inference q task mp timing success err size
  | .opUsage task mp => log_model_usage q task mp

/-- Effect of a sequence of enqueue operations on the queue. -/
def apply_ops (q : List WriteItem) (ops : List TelemetryOp) : List WriteItem :=
  ops.foldl apply_op q

/-- Whether an item is an inference-run write. -/
def WriteItem.isInfRun : WriteItem → Bool
  | .infRun _ => true
  | .usage _ => false

/-- Whether an item is a model-usage write. -/
def WriteItem.isUsage : WriteItem → Bool
  | .infRun _ => false
  | .usage _ => true

/-- Number of inference-run writes in the queue. -/
def count_inf_runs (q : List WriteItem) : Nat := (q.filter WriteItem.isInfRun).length

/-- Number of model-usage writes in the queue. -/
def count_usage (q : List WriteItem) : Nat := (q.filter WriteItem.isUsage).length

lemma apply_ops_usage_replicate (task mp : String) :
    ∀ (k : Nat) (q : List WriteItem),
      (apply_ops q (List.replicate k (.opUsage task mp))).length = q.length + k := by
  intro k
  induction k with
  | zero => intro q; simp [apply_ops]
  | succ k ih =>
    intro q
    rw [List.replicate_succ]
    show (apply_ops (apply_op q (.opUsage task mp)) (List.replicate k (.opUsage task mp))).length = _
    rw [ih]
    simp [apply_op, log_model_usage]
    omega

lemma apply_ops_inf_bounded :
    ∀ (ops : List TelemetryOp) (q : List WriteItem), (∀ o ∈ ops, o.isInf = true) →
      q.length ≤ 1001 → (apply_ops q ops).length ≤ 1001 := by
  intro ops
  induction ops with
  | nil => intro q _ hq; simpa [apply_ops] using hq
  | cons o rest ih =>
    intro q hops hq
    show (apply_ops (apply_op q o) rest).length ≤ 1001
    refine ih _ (fun o ho => hops o (List.mem_cons_of_mem _ ho)) ?_
    have ho : o.isInf = true := hops o (List.mem_cons_self _ _)
    cases o with
    | opUsage t mp => simp [TelemetryOp.isInf] at ho
    | opInf t mp tm s e sz =>
      simp only [apply_op, log_inference]
      split
      · exact hq
      · next h =>
        simp only [not_lt] at h
        simp only [List.length_append, List.length_singleton]
        omega

/-- C3 counterexample: 1001 consecutive `log_model_usage` enqueues leave 1001
items resident in the queue, exceeding the claimed capacity of 1000 (the code
has no capacity check at all on `log_model_usage`). -/
theorem c3_counterexample :
    (apply_ops [] (List.replicate 1001 (.opUsage "detect" "yolo11n.pt"))).length = 1001 ∧
    ¬ (apply_ops [] (List.replicate 1001 (.opUsage "detect" "yolo11n.pt"))).length ≤ 1000 := by
  have h := apply_ops_usage_replicate "detect" "yolo11n.pt" 1001 []
  simp only [List.length_nil, Nat.zero_add] at h
  exact ⟨h, by omega⟩

/-- C3 amended: no enqueue ever blocks (both calls are total and return the
updated queue); `log_inference` drops its item exactly when the queue already
holds more than 1000 items, so sequences of `log_inference` calls keep the
queue at ≤ 1001 items; `log_model_usage` appends unconditionally, so the
queue can exceed any bound. -/
theorem c3_enqueue_amended (q : List WriteItem) (task mp : String) (timing : Timing)
    (success : Bool) (err : Option String) (size : Nat) :
    (q.length > 1000 → log_inference q task mp timing success err size = q) ∧
    (q.length ≤ 1000 → log_inference q task mp timing success err size =
      q ++ [.infRun (mkInfRow task mp timing success err size)]) ∧
    (log_model_usage q task mp = q ++ [.usage ⟨task, mp⟩]) ∧
    (∀ ops : List TelemetryOp, (∀ o ∈ ops, o.isInf = true) →
      (apply_ops [] ops).length ≤ 1001) := by
  refine ⟨fun h => by simp [log_inference, h], fun h => ?_, rfl,
    fun ops hops => apply_ops_inf_bounded ops [] hops (by simp)⟩
  simp only [log_inference, if_neg (by omega : ¬ q.length > 1000)]

/-- C3 witness at a concrete queue of size 0 and a concrete drop at size 1001. -/
theorem c3_enqueue_amended_witness :
    log_inference [] "detect" "yolo11n.pt" {} true none 64 =
      [.infRun (mkInfRow "detect" "yolo11n.pt" {} true none 64)] ∧
    log_inference (List.replicate 1001 (.usage ⟨"detect", "m"⟩)) "detect" "yolo11n.pt" {} true none 64 =
      List.replicate 1001 (.usage ⟨"detect", "m"⟩) := by
  constructor
  · exact ((c3_enqueue_amended [] "detect" "yolo11n.pt" {} true none 64).2.1 (by simp))
  · exact ((c3_enqueue_amended (List.replicate 1001 (.usage ⟨"detect", "m"⟩))
      "detect" "yolo11n.pt" {} true none 64).1 (by rw [List.length_replicate]; omega))

/-- C4: the background flusher takes no batch from an empty queue (it waits
its bounded interval and loops); on a non-empty queue it drains a batch of at
most 100 items (the first item plus a greedy non-blocking drain), writes the
whole batch in one all-or-nothing transaction, discards the batch without
retry when the transaction fails, and the loop then continues with the
remaining queue. -/
theorem c4_background_writer (ok : Bool) (q : List WriteItem) (db : DBState) :
    (background_writer_step ok ([] : List WriteItem) db = ([], db)) ∧
    (q ≠ [] → background_writer_step ok q db =
      (q.drop 100, execute_batch_write ok db (q.take 100))) ∧
    ((q.take 100).length ≤ 100) ∧
    (execute_batch_write true db (q.take 100) = (q.take 100).foldl apply_write db) ∧
    (execute_batch_write false db (q.take 100) = db) ∧
    (∀ oks : List Bool, background_writer_run (ok :: oks) q db =
      background_writer_run oks (background_writer_step ok q db).1
        (background_writer_step ok q db).2) := by
  refine ⟨rfl, fun hq => ?_, ?_, rfl, rfl, fun oks => rfl⟩
  · cases q with
    | nil => exact absurd rfl hq
    | cons a l => rfl
  · simp

/-- C4 witness: a concrete 3-item queue with a failing then a succeeding
transaction. -/
theorem c4_background_writer_witness :
    background_writer_step false [.usage ⟨"detect", "m"⟩, .usage ⟨"pose", "m"⟩]
        ⟨[], []⟩ = ([], ⟨[], []⟩) ∧
    background_writer_step true [.usage ⟨"detect", "m"⟩] ⟨[], []⟩ =
      ([], ⟨[], [⟨"detect", "m"⟩]⟩) := by
  constructor
  · have h := (c4_background_writer false [.usage ⟨"detect", "m"⟩, .usage ⟨"pose", "m"⟩]
      ⟨[], []⟩).2.1 (by simp)
    rw [h]; rfl
  · have h := (c4_background_writer true [.usage ⟨"detect", "m"⟩] ⟨[], []⟩).2.1 (by simp)
    rw [h]; rfl

lemma count_usage_append_infRun (q : List WriteItem) (d : InfRow) :
    count_usage (q ++ [.infRun d]) = count_usage q := by
  simp [count_usage, List.filter_append, WriteItem.isUsage]

lemma count_usage_log_inference (q : List WriteItem) (task mp : String) (timing : Timing)
    (success : Bool) (err : Option String) (size : Nat) :
    count_usage (log_inference q task mp timing success err size) = count_usage q := by
  unfold log_inference
  split
  · rfl
  · exact count_usage_append_infRun q _

lemma count_inf_runs_append (a b : List WriteItem) :
    count_inf_runs (a ++ b) = count_inf_runs a + count_inf_runs b := by
  simp [count_inf_runs, List.filter_append]

lemma count_inf_runs_replicate_usage (k : Nat) (u : UsageRow) :
    count_inf_runs (List.replicate k (.usage u)) = 0 := by
  induction k with
  | zero => rfl
  | succ k ih =>
    rw [List.replicate_succ]
    simp only [count_inf_runs, List.filter_cons, WriteItem.isInfRun] at ih ⊢
    exact ih

/-- C10 counterexample: with 1001 items already queued, `log_inference_run`
with `success = True` enqueues the model-usage write but the inference-run
write is dropped — it is not enqueued unconditionally. -/
theorem c10_counterexample :
    log_inference_run (List.replicate 1001 (.usage ⟨"detect", "m"⟩)) "detect" "yolo11n.pt"
        {} true none 64 =
      List.replicate 1001 (.usage ⟨"detect", "m"⟩) ++ [.usage ⟨"detect", "yolo11n.pt"⟩] ∧
    count_inf_runs (log_inference_run (List.replicate 1001 (.usage ⟨"detect", "m"⟩))
        "detect" "yolo11n.pt" {} true none 64) = 0 := by
  have hq : (List.replicate 1001 ((.usage ⟨"detect", "m"⟩ : WriteItem))).length > 1000 := by
    rw [List.length_replicate]; omega
  have hdrop : log_inference (List.replicate 1001 (.usage ⟨"detect", "m"⟩)) "detect"
      "yolo11n.pt" {} true none 64 = List.replicate 1001 (.usage ⟨"detect", "m"⟩) := by
    unfold log_inference
    rw [if_pos hq]
  have h1 : log_inference_run (List.replicate 1001 (.usage ⟨"detect", "m"⟩)) "detect"
      "yolo11n.pt" {} true none 64 =
      List.replicate 1001 (.usage ⟨"detect", "m"⟩) ++ [.usage ⟨"detect", "yolo11n.pt"⟩] := by
    show log_model_usage (log_inference (List.replicate 1001 (.usage ⟨"detect", "m"⟩))
      "detect" "yolo11n.pt" {} true none 64) "detect" "yolo11n.pt" = _
    rw [hdrop]
    rfl
  refine ⟨h1, ?_⟩
  rw [h1, count_inf_runs_append, count_inf_runs_replicate_usage]
  rfl

/-- C10 amended: `log_inference_run` always submits the inference-run write
(which is itself dropped when more than 1000 items are already queued, and
appended otherwise), and appends a model-usage write if and only if the run's
success flag is true; failed runs never add model-usage records. -/
theorem c10_facade_amended (q : List WriteItem) (task mp : String) (timing : Timing)
    (success : Bool) (err : Option String) (size : Nat) :
    (log_inference_run q task mp timing false err size =
      log_inference q task mp timing false err size) ∧
    (log_inference_run q task mp timing true err size =
      log_inference q task mp timing true err size ++ [.usage ⟨task, mp⟩]) ∧
    (count_usage (log_inference_run q task mp timing false err size) = count_usage q) ∧
    (q.length ≤ 1000 → log_inference_run q task mp timing success err size =
      (q ++ [.infRun (mkInfRow task mp timing success err size)]) ++
        (if success then [.usage ⟨task, mp⟩] else [])) := by
  refine ⟨rfl, rfl, count_usage_log_inference q task mp timing false err size, fun hq => ?_⟩
  have hni : ¬ q.length > 1000 := by omega
  cases success with
  | false => simp [log_inference_run, log_inference, hni]
  | true => simp [log_inference_run, log_inference, log_model_usage, hni]

/-! ## Aggregate statistics (claim C5) -/

/-- Synthetic data of the claim: 10 successful detect runs with fps
10, 20, …, 100 plus 2 failed runs. -/
def mk_success_row (fps : ℚ) : InfRow := ⟨"detect", "yolo11n.pt", 100, 120, fps, true, none, 5000⟩

/-- A failed detect run. -/
def mk_failed_row : InfRow := ⟨"detect", "yolo11n.pt", 0, 0, 0, false, some "boom", 5000⟩

/-- The 12-row synthetic telemetry set of the claim. -/
def c5_rows : List InfRow :=
  [mk_success_row 10, mk_success_row 20, mk_success_row 30, mk_success_row 40,
   mk_success_row 50, mk_success_row 60, mk_success_row 70, mk_success_row 80,
   mk_success_row 90, mk_success_row 100, mk_failed_row, mk_failed_row]

/-- Statement of the claim's words, for comparison with `get_stats`: the mean
fps computed over successful runs only (with no further filter). -/
def spec_avg_fps (rows : List InfRow) : ℚ :=
  round2 (listAvg ((rows.filter (·.success)).map (·.fps)))

/-- Statement of the claim's words: success rate as a percentage of all runs,
rounded to 2 decimals, zero when there are no rows. -/
def spec_success_rate (rows : List InfRow) : ℚ :=
  if rows.length = 0 then 0
  else round2 (100 * ((rows.filter (·.success)).length : ℚ) / rows.length)

/-- Statement of the claim's words: mean inference time over successful runs,
rounded to 2 decimals. -/
def spec_avg_inference (rows : List InfRow) : ℚ :=
  round2 (listAvg ((rows.filter (·.success)).map (·.inference_time_ms)))

/-- Two successful runs, one with fps 0: here the code's `AVG(fps)` filter
`success = 1 AND fps > 0` diverges from "mean fps over successful runs". -/
def c5_cex_rows : List InfRow :=
  [⟨"detect", "m", 100, 120, 0, true, none, 0⟩, ⟨"detect", "m", 100, 120, 10, true, none, 0⟩]

/-- C5 counterexample: for a successful run with fps 0 alongside a successful
run with fps 10, `get_stats` reports `avg_fps = 10` (it averages only over
successful rows with positive fps), while the claimed mean over successful
runs is 5. -/
theorem c5_counterexample :
    (get_stats c5_cex_rows).avg_fps = 10 ∧ spec_avg_fps c5_cex_rows = 5 ∧
    (get_stats c5_cex_rows).avg_fps ≠ spec_avg_fps c5_cex_rows := by
  refine ⟨?_, ?_, ?_⟩ <;>
    norm_num [get_stats, spec_avg_fps, c5_cex_rows, listAvg, round2, round_eq, List.filter]

/-- C5 amended: `get_stats` returns the total run count, the success rate in
percent rounded to 2 decimals, the mean fps over successful runs **with
positive fps**, and the mean inference time over successful runs; the
per-task breakdown counts successful runs and their mean fps; with no rows
every statistic is zero and no fault occurs.  On the synthetic set (10
successful detect runs with fps 10..100 plus 2 failed runs) it reports
total_runs = 12, success_rate = 83.33, avg_fps = 55, and a detect breakdown
count of 10. -/
theorem c5_stats_amended (rows : List InfRow) :
    (get_stats c5_rows = ⟨12, 83.33, 55, 100⟩) ∧
    (get_task_stats c5_rows "detect" = some ⟨10, 55⟩) ∧
    (get_stats [] = ⟨0, 0, 0, 0⟩) ∧
    (∀ t, get_task_stats [] t = none) ∧
    ((get_stats rows).total_runs = rows.length) ∧
    ((get_stats rows).success_rate = spec_success_rate rows) ∧
    ((get_stats rows).avg_inference_time_ms = spec_avg_inference rows) := by
  refine ⟨?_, ?_, ?_, fun t => rfl, rfl, ?_, rfl⟩
  · norm_num [get_stats, c5_rows, mk_success_row, mk_failed_row, listAvg, round2, round_eq,
      List.filter]
  · norm_num [get_task_stats, c5_rows, mk_success_row, mk_failed_row, listAvg, List.filter]
  · norm_num [get_stats, listAvg, round2, round_eq]
  · simp only [get_stats, spec_success_rate]
    by_cases h : rows.length = 0
    · simp [h, round2]
    · have hp : rows.length > 0 := Nat.pos_of_ne_zero h
      rw [if_pos hp, if_neg h]
      congr 1
      ring

/-- C10 witness: concrete calls on an empty queue, one successful and one
failed run. -/
theorem c10_facade_amended_witness :
    log_inference_run [] "detect" "yolo11n.pt" {} true none 64 =
      [.infRun (mkInfRow "detect" "yolo11n.pt" {} true none 64),
       .usage ⟨"detect", "yolo11n.pt"⟩] ∧
    count_usage (log_inference_run [] "detect" "yolo11n.pt" {} false (some "boom") 64) =
      count_usage [] := by
  constructor
  · have h := (c10_facade_amended [] "detect" "yolo11n.pt" {} true none 64).2.2.2 (by simp)
    simpa using h
  · exact (c10_facade_amended [] "detect" "yolo11n.pt" {} false (some "boom") 64).2.2.1

/-! ## Claim C2 — timeout behaviour of `run_async` -/

/-- C2: when a submission's execution does not finish within the timeout
(default 30), the caller receives `{'success': False, 'error': 'Inference
timeout', 'task': task}`, while the submitted `run_inference` call is not
cancelled: the worker still computes the full pipeline result, which is
simply discarded. -/
theorem c2_timeout (env : InferEnv) (task : String) (image_bytes : List Nat)
    (kwargs : Kwargs) (duration : ℚ) (h : default_timeout < duration) :
    (run_async env task image_bytes kwargs default_timeout duration).caller_result =
      ⟨false, none, some "Inference timeout", task⟩ ∧
    (run_async env task image_bytes kwargs default_timeout duration).worker_result =
      (run_inference env task image_bytes kwargs).result ∧
    default_timeout = 30 := by
  have hn : ¬ duration ≤ default_timeout := not_le.mpr h
  refine ⟨?_, ?_, rfl⟩ <;> simp [run_async, hn]

/-- C2 witness: a concrete environment and a 31-unit execution against the
default 30-unit timeout. -/
theorem c2_timeout_witness :
    (run_async ⟨fun _ => none, fun _ => none, fun _ => none, fun _ _ _ _ => []⟩
        "detect" [] {} default_timeout 31).caller_result =
      ⟨false, none, some "Inference timeout", "detect"⟩ ∧
    (run_async ⟨fun _ => none, fun _ => none, fun _ => none, fun _ _ _ _ => []⟩
        "detect" [] {} default_timeout 31).worker_result =
      (run_inference ⟨fun _ => none, fun _ => none, fun _ => none, fun _ _ _ _ => []⟩
        "detect" [] {}).result := by
  have h := c2_timeout ⟨fun _ => none, fun _ => none, fun _ => none, fun _ _ _ _ => []⟩
    "detect" [] {} 31 (by norm_num [default_timeout])
  exact ⟨h.1, h.2.1⟩

/-! ## Claim C6 — decode stage -/

/-- C6: the decode stage accepts inputs parseable by either of its two
decoders (PIL, then OpenCV) and every successfully decoded image is
3-channel RGB; when neither decoder can parse the bytes, `run_inference`
returns a failure with the decode error and the infer and postprocess stages
never run.  The hypothesis `hcv` is the `cv2.imdecode(..., IMREAD_COLOR)`
contract: a successful decode is a 3-channel BGR array. -/
theorem c6_decode_pipeline (env : InferEnv) (task : String) (kwargs : Kwargs)
    (hcv : ∀ b image, env.cv_imdecode b = some image → image = ⟨3, .bgr⟩) :
    (∀ b image, decode_image env b = .ok image → image.channels = 3 ∧ image.order = .rgb) ∧
    (∀ b mode, env.pil_open b = some mode →
       decode_image env b = .ok ⟨3, .rgb⟩) ∧
    (∀ b image, env.pil_open b = none → env.cv_imdecode b = some image →
       decode_image env b = .ok (cvt_color_bgr2rgb image)) ∧
    (∀ b, env.pil_open b = none → env.cv_imdecode b = none →
       (run_inference env task b kwargs).result =
         ⟨false, none, some "Failed to decode image", task⟩ ∧
       (run_inference env task b kwargs).stages = [.decode] ∧
       Stage.infer ∉ (run_inference env task b kwargs).stages ∧
       Stage.post ∉ (run_inference env task b kwargs).stages) := by
  have hpil : ∀ b mode, env.pil_open b = some mode → decode_image env b = .ok ⟨3, .rgb⟩ := by
    intro b mode hb
    unfold decode_image
    rw [hb]
    by_cases hm : mode == "RGB"
    · simp [np_array_of_mode, hm]
    · simp [np_array_of_mode, hm]
  refine ⟨?_, hpil, ?_, ?_⟩
  · intro b image h
    cases hb : env.pil_open b with
    | some mode =>
      rw [hpil b mode hb] at h
      cases h
      exact ⟨rfl, rfl⟩
    | none =>
      unfold decode_image at h
      rw [hb] at h
      cases hc : env.cv_imdecode b with
      | some i =>
        rw [hc] at h
        cases h
        exact ⟨by rw [hcv b i hc]; rfl, rfl⟩
      | none => rw [hc] at h; cases h
  · intro b image hb hc
    unfold decode_image
    rw [hb, hc]
  · intro b hb hc
    have hd : decode_image env b = .error "Failed to decode image" := by
      unfold decode_image
      rw [hb, hc]
    unfold run_inference
    rw [hd]
    refine ⟨rfl, rfl, by simp, by simp⟩

/-- C6 witness: an environment where PIL decodes `[1]` as an RGB image and
nothing decodes `[2]`. -/
theorem c6_decode_pipeline_witness :
    decode_image ⟨fun b => if b = [1] then some "RGB" else none, fun _ => none,
        fun _ => none, fun _ _ _ _ => []⟩ [1] = .ok ⟨3, .rgb⟩ ∧
    (run_inference ⟨fun b => if b = [1] then some "RGB" else none, fun _ => none,
        fun _ => none, fun _ _ _ _ => []⟩ "detect" [2] {}).result =
      ⟨false, none, some "Failed to decode image", "detect"⟩ ∧
    (run_inference ⟨fun b => if b = [1] then some "RGB" else none, fun _ => none,
        fun _ => none, fun _ _ _ _ => []⟩ "detect" [2] {}).stages = [.decode] := by
  have h := c6_decode_pipeline
    ⟨fun b => if b = [1] then some "RGB" else none, fun _ => none,
     fun _ => none, fun _ _ _ _ => []⟩ "detect" {}
    (by intro b image hb; simp at hb)
  refine ⟨h.2.1 [1] "RGB" (by simp), (h.2.2.2 [2] (by simp) rfl).1, (h.2.2.2 [2] (by simp) rfl).2.1⟩

/-! ## Claim C8 — inference options -/

/-- C8 amended: `imgsz` and `conf` default to 640 and 0.25 when absent from
`kwargs`, and whatever values are present are forwarded to `model.predict`
unchanged — there is no clamping or rejection of non-positive values. -/
theorem c8_options_amended (env : InferEnv) (task : String) (image_bytes : List Nat)
    (kwargs : Kwargs) (sz cf : ℚ)
    (h : (run_inference env task image_bytes kwargs).predict_args = some (sz, cf)) :
    sz = kwargs.imgsz.getD 640 ∧ cf = kwargs.conf.getD 0.25 := by
  unfold run_inference at h
  cases hd : decode_image env image_bytes with
  | error e => rw [hd] at h; cases h
  | ok image =>
    rw [hd] at h
    cases hm : env.registry_get task with
    | none => rw [hm] at h; cases h
    | some model =>
      rw [hm] at h
      simp only [Option.some.injEq, Prod.mk.injEq] at h
      exact ⟨h.1.symm, h.2.symm⟩

/-- C8 counterexample: non-positive option values reach `model.predict`
unmodified — `imgsz = -5` and `conf = -1` are passed straight through, not
clamped or rejected at the pipeline boundary. -/
theorem c8_counterexample :
    (run_inference ⟨fun _ => some "RGB", fun _ => none, fun _ => some 0, fun _ _ _ _ => []⟩
        "detect" [] ⟨some (-5), some (-1)⟩).predict_args = some (-5, -1) ∧
    ¬ (0 < (-5 : ℚ)) ∧ ¬ (0 < (-1 : ℚ)) := by
  refine ⟨rfl, by norm_num, by norm_num⟩

/-- C8 witness: with an empty `kwargs` the model receives the defaults. -/
theorem c8_options_amended_witness :
    (640 : ℚ) = (({} : Kwargs)).imgsz.getD 640 ∧
    (0.25 : ℚ) = (({} : Kwargs)).conf.getD 0.25 :=
  c8_options_amended ⟨fun _ => some "RGB", fun _ => none, fun _ => some 0, fun _ _ _ _ => []⟩
    "detect" [] {} 640 0.25 rfl

/-! ## Claim C9 — load failure, fallback, no failure caching -/

/-- C9: when loading the resolved artifact for a task raises, `_load_model`
retries exactly once against the default artifact identifier; if that also
raises, `get_model` returns no handle, the store is left unchanged (the
failure is not cached), and the next `get_model` call for the task performs
the load attempts again; if the fallback succeeds its handle is installed
and returned. -/
theorem c9_load_fallback (env : RegistryEnv) (task : String)
    (hp : env.load (resolve_model_path env task) = none) :
    load_attempts env task = [resolve_model_path env task, default_map task] ∧
    (∀ m, env.load (default_map task) = some m → (get_model env [] task).2 = some m) ∧
    (env.load (default_map task) = none →
      get_model env [] task = ([], none) ∧
      get_model_attempts env ([] : List (String × Nat)) task =
        [resolve_model_path env task, default_map task] ∧
      get_model_attempts env (get_model env [] task).1 task =
        [resolve_model_path env task, default_map task] ∧
      (get_model env (get_model env [] task).1 task).2 = none) := by
  have h1 : load_attempts env task = [resolve_model_path env task, default_map task] := by
    unfold load_attempts
    rw [hp]
  refine ⟨h1, fun m hm => ?_, fun hd => ?_⟩
  · have hlm : load_model env [] task = [(task, m)] := by
      unfold load_model
      rw [hp, hm]
    unfold get_model
    simp [List.lookup, hlm]
  · have hlm : load_model env [] task = [] := by
      unfold load_model
      rw [hp, hd]
    have hg : get_model env [] task = ([], none) := by
      unfold get_model
      simp [List.lookup, hlm]
    have ha : get_model_attempts env ([] : List (String × Nat)) task =
        [resolve_model_path env task, default_map task] := by
      unfold get_model_attempts
      simp [List.lookup, h1]
    refine ⟨hg, ha, ?_, ?_⟩
    · rw [hg]
      exact ha
    · rw [hg]
      exact congrArg Prod.snd hg

/-- C9 witness: an environment whose configured path exists but whose loader
always raises. -/
theorem c9_load_fallback_witness :
    load_attempts ⟨fun _ => some "configured.pt", fun _ => true, fun _ => none⟩ "detect" =
      ["configured.pt", "yolo11n.pt"] ∧
    get_model ⟨fun _ => some "configured.pt", fun _ => true, fun _ => none⟩ [] "detect" =
      ([], none) := by
  have h := c9_load_fallback ⟨fun _ => some "configured.pt", fun _ => true, fun _ => none⟩
    "detect" rfl
  exact ⟨h.1, (h.2.2 rfl).1⟩

/-! ## Claim C7 — classify top-5 postprocessing -/

instance (v : Nat → ℚ) : IsTotal Nat (argsort_le v) := by
  constructor
  intro i j
  rcases lt_trichotomy (v i) (v j) with h | h | h
  · exact Or.inl (Or.inl h)
  · rcases Nat.le_total i j with hij | hji
    · exact Or.inl (Or.inr ⟨h, hij⟩)
    · exact Or.inr (Or.inr ⟨h.symm, hji⟩)
  · exact Or.inr (Or.inl h)

instance (v : Nat → ℚ) : IsTrans Nat (argsort_le v) := by
  constructor
  intro a b c hab hbc
  rcases hab with h1 | ⟨h1, h1'⟩
  · rcases hbc with h2 | ⟨h2, _⟩
    · exact Or.inl (h1.trans h2)
    · exact Or.inl (h2 ▸ h1)
  · rcases hbc with h2 | ⟨h2, h2'⟩
    · exact Or.inl (h1 ▸ h2)
    · exact Or.inr ⟨h1.trans h2, h1'.trans h2'⟩

lemma argsort_perm (probs : List ℚ) :
    List.Perm (argsort probs) (List.range probs.length) :=
  List.perm_insertionSort _ _

lemma argsort_sorted (probs : List ℚ) :
    List.Sorted (argsort_le (fun i => probs.getD i 0)) (argsort probs) :=
  List.sorted_insertionSort _ _

/-- Documented contract of `np.argsort(probs)`, for every `kind`: the result
is a permutation of `range(len(probs))` whose values are ascending.  The
relative order of equal values is **not** part of the contract: the default
`kind='quicksort'` is unstable above numpy's insertion-sort threshold, so any
such permutation may be returned. -/
def IsNpArgsort (probs : List ℚ) (l : List Nat) : Prop :=
  List.Perm l (List.range probs.length) ∧
  List.Sorted (fun i j => probs.getD i 0 ≤ probs.getD j 0) l

/-- The stable realization satisfies the `np.argsort` contract. -/
lemma argsort_isNpArgsort (probs : List ℚ) : IsNpArgsort probs (argsort probs) := by
  refine ⟨argsort_perm probs, ?_⟩
  refine (argsort_sorted probs).imp ?_
  rintro a b (h | ⟨h, _⟩)
  · exact le_of_lt h
  · exact le_of_eq h

/-- The classify branch of `_process_results` applied to a given argsort
output: `argsorted[-5:][::-1]`, each index mapped to its
id/confidence/class-name entry. -/
def classify_preds_of (res : YoloResult) (probs : List ℚ) (sorted_idx : List Nat) :
    List ClassPred :=
  ((sorted_idx.drop (probs.length - 5)).reverse).map
    (fun idx => ⟨idx, probs.getD idx 0, res.names idx⟩)

lemma np_argsort_length (probs : List ℚ) {sorted_idx : List Nat}
    (hs : IsNpArgsort probs sorted_idx) : sorted_idx.length = probs.length := by
  have := hs.1.length_eq
  simpa using this

lemma np_top5_length (probs : List ℚ) {sorted_idx : List Nat}
    (hs : IsNpArgsort probs sorted_idx) (h5 : 5 ≤ probs.length) :
    ((sorted_idx.drop (probs.length - 5)).reverse).length = 5 := by
  rw [List.length_reverse, List.length_drop, np_argsort_length probs hs]
  omega

lemma np_top5_mem_lt (probs : List ℚ) {sorted_idx : List Nat}
    (hs : IsNpArgsort probs sorted_idx) {i : Nat}
    (h : i ∈ (sorted_idx.drop (probs.length - 5)).reverse) : i < probs.length :=
  List.mem_range.mp (hs.1.mem_iff.mp
    ((List.drop_sublist _ _).subset (List.mem_reverse.mp h)))

lemma np_top5_nodup (probs : List ℚ) {sorted_idx : List Nat}
    (hs : IsNpArgsort probs sorted_idx) :
    ((sorted_idx.drop (probs.length - 5)).reverse).Nodup := by
  rw [List.nodup_reverse]
  exact (List.drop_sublist _ _).nodup (hs.1.nodup_iff.mpr (List.nodup_range _))

lemma np_top5_pairwise (probs : List ℚ) {sorted_idx : List Nat}
    (hs : IsNpArgsort probs sorted_idx) :
    List.Pairwise (fun i j => probs.getD j 0 ≤ probs.getD i 0)
      ((sorted_idx.drop (probs.length - 5)).reverse) := by
  rw [List.pairwise_reverse]
  exact List.Pairwise.sublist (List.drop_sublist _ _) hs.2

lemma np_top5_complete (probs : List ℚ) {sorted_idx : List Nat}
    (hs : IsNpArgsort probs sorted_idx) {j : Nat} (hj : j < probs.length)
    (hnot : j ∉ (sorted_idx.drop (probs.length - 5)).reverse) {i : Nat}
    (hi : i ∈ (sorted_idx.drop (probs.length - 5)).reverse) :
    probs.getD j 0 ≤ probs.getD i 0 := by
  have hjmem : j ∈ sorted_idx := hs.1.mem_iff.mpr (List.mem_range.mpr hj)
  have hjdrop : j ∉ sorted_idx.drop (probs.length - 5) := fun hc =>
    hnot (List.mem_reverse.mpr hc)
  have hjtake : j ∈ sorted_idx.take (probs.length - 5) := by
    rw [← List.take_append_drop (probs.length - 5) sorted_idx] at hjmem
    rcases List.mem_append.mp hjmem with h | h
    · exact h
    · exact absurd h hjdrop
  exact hs.2.rel_of_mem_take_of_mem_drop hjtake (List.mem_reverse.mp hi)

/-- The classify `predictions` list emitted by `_process_results` (empty when
the classify branch was not taken). -/
def classify_preds (res : YoloResult) : List ClassPred :=
  ((process_results [res] "classify").predictions).getD []

lemma process_results_classify (res : YoloResult) (probs : List ℚ)
    (hp : res.probs = some probs) :
    (process_results [res] "classify").predictions =
      some ((top5_idx probs).map (fun idx => ⟨idx, probs.getD idx 0, res.names idx⟩)) := by
  simp [process_results, hp]

/-- A classify result with a probability tie between class ids 0 and 1. -/
def c7_result : YoloResult := { probs := some [5, 5, 0, 0, 0, 0] }

/-- C7 counterexample: with tied probabilities for class ids 0 and 1, the
emitted top-5 order is [1, 0, 5, 4, 3] — the tie is broken in favour of the
**higher** class id first, not the lower. -/
theorem c7_counterexample :
    (classify_preds c7_result).map (fun e => e.class_id) = [1, 0, 5, 4, 3] ∧
    (classify_preds c7_result).map (fun e => e.confidence) = [5, 5, 0, 0, 0] ∧
    ([5, 5, 0, 0, 0, 0] : List ℚ).getD 0 0 = ([5, 5, 0, 0, 0, 0] : List ℚ).getD 1 0 := by
  refine ⟨by decide, by decide, rfl⟩

/-- C7 amended: for a classify result with at least 5 classes, and for
**every** index order `np.argsort` may return (any permutation of the class
ids with probabilities ascending — the order of equal probabilities is
implementation-defined for the default quicksort above numpy's
insertion-sort threshold), postprocessing emits exactly 5 entries with
pairwise-distinct class ids, each carrying its class id, that class's
probability as confidence, and its class name; the entries are ordered by
non-increasing probability, and every class id not emitted has probability
no greater than every emitted one.  Ties are therefore **not** guaranteed to
be broken in favour of the lower class id (in numpy's stable small-array
regime the higher class id comes first — the counterexample).  The
program's embedding instantiates the contract with the stable realization
`argsort`. -/
theorem c7_classify_amended (res : YoloResult) (probs : List ℚ) (sorted_idx : List Nat)
    (hp : res.probs = some probs) (h5 : 5 ≤ probs.length)
    (hs : IsNpArgsort probs sorted_idx) :
    (process_results [res] "classify").predictions =
      some (classify_preds_of res probs (argsort probs)) ∧
    IsNpArgsort probs (argsort probs) ∧
    (classify_preds_of res probs sorted_idx).length = 5 ∧
    (∀ e ∈ classify_preds_of res probs sorted_idx, e.class_id < probs.length ∧
       e.confidence = probs.getD e.class_id 0 ∧ e.class_name = res.names e.class_id) ∧
    ((classify_preds_of res probs sorted_idx).map (fun e => e.class_id)).Nodup ∧
    List.Pairwise (fun a b => b.confidence ≤ a.confidence)
      (classify_preds_of res probs sorted_idx) ∧
    (∀ j, j < probs.length →
       (∀ e ∈ classify_preds_of res probs sorted_idx, e.class_id ≠ j) →
       ∀ e ∈ classify_preds_of res probs sorted_idx, probs.getD j 0 ≤ e.confidence) := by
  refine ⟨?_, argsort_isNpArgsort probs, ?_, ?_, ?_, ?_, ?_⟩
  · rw [process_results_classify res probs hp]
    rfl
  · simp only [classify_preds_of, List.length_map]
    exact np_top5_length probs hs h5
  · intro e he
    simp only [classify_preds_of] at he
    obtain ⟨idx, hidx, rfl⟩ := List.mem_map.mp he
    exact ⟨np_top5_mem_lt probs hs hidx, rfl, rfl⟩
  · have hmap : (classify_preds_of res probs sorted_idx).map (fun e => e.class_id) =
        (sorted_idx.drop (probs.length - 5)).reverse := by
      simp only [classify_preds_of, List.map_map]
      show List.map (fun idx => idx) ((sorted_idx.drop (probs.length - 5)).reverse) = _
      exact List.map_id' _
    rw [hmap]
    exact np_top5_nodup probs hs
  · simp only [classify_preds_of, List.pairwise_map]
    exact np_top5_pairwise probs hs
  · intro j hj hne e he
    have hjnot : j ∉ (sorted_idx.drop (probs.length - 5)).reverse := by
      intro hc
      exact hne ⟨j, probs.getD j 0, res.names j⟩
        (by simp only [classify_preds_of]; exact List.mem_map.mpr ⟨j, hc, rfl⟩) rfl
    simp only [classify_preds_of] at he
    obtain ⟨idx, hidx, rfl⟩ := List.mem_map.mp he
    exact np_top5_complete probs hs hj hjnot hidx

/-- C7 witness: the amended theorem instantiated at the concrete 6-class
result, with the stable realization as the argsort output. -/
theorem c7_classify_amended_witness :
    (process_results [c7_result] "classify").predictions =
      some (classify_preds_of c7_result [5, 5, 0, 0, 0, 0] (argsort [5, 5, 0, 0, 0, 0])) ∧
    (classify_preds_of c7_result [5, 5, 0, 0, 0, 0] (argsort [5, 5, 0, 0, 0, 0])).length = 5 := by
  have h := c7_classify_amended c7_result [5, 5, 0, 0, 0, 0] (argsort [5, 5, 0, 0, 0, 0])
    rfl (by norm_num) (argsort_isNpArgsort [5, 5, 0, 0, 0, 0])
  exact ⟨h.1, h.2.2.1⟩

/-! ## Claim C1 — concurrent first-time callers of `get_model` -/

lemma isFinished_iff {p : Phase} : p.isFinished = true ↔ ∃ r, p = .finished r := by
  cases p <;> simp [Phase.isFinished]

lemma lookup_load_model_empty_none {env : RegistryEnv} {task : String}
    (h : (load_model env ([] : List (String × Nat)) task).lookup task = none) :
    load_model env ([] : List (String × Nat)) task = [] := by
  unfold load_model at h ⊢
  cases h1 : env.load (resolve_model_path env task) with
  | some m => rw [h1] at h; simp [List.lookup] at h
  | none =>
    rw [h1] at h
    cases h2 : env.load (default_map task) with
    | some m => rw [h2] at h; simp [List.lookup] at h
    | none => rfl

lemma get_model_of_lookup_some {env : RegistryEnv} {models : List (String × Nat)}
    {task : String} {m : Nat} (h : List.lookup task models = some m) :
    get_model env models task = (models, some m) := by
  simp only [get_model, h]

lemma get_model_of_lookup_none {env : RegistryEnv} {models : List (String × Nat)}
    {task : String} (h : List.lookup task models = none) :
    get_model env models task =
      (load_model env models task, List.lookup task (load_model env models task)) := by
  simp only [get_model, h]

lemma load_invocations_of_some {models : List (String × Nat)} {task : String} {m : Nat}
    (h : List.lookup task models = some m) : load_invocations models task = 0 := by
  simp only [load_invocations, h]

lemma load_invocations_of_none {models : List (String × Nat)} {task : String}
    (h : List.lookup task models = none) : load_invocations models task = 1 := by
  simp only [load_invocations, h]

lemma doneSet_acquire {n : Nat} (s : RegState n) (i : Fin n) (hp : s.phase i = .start) :
    doneSet (⟨some i, s.models, s.load_count, Function.update s.phase i .critical⟩ :
      RegState n) = doneSet s := by
  apply Finset.ext
  intro j
  simp only [doneSet, Finset.mem_filter, Finset.mem_univ, true_and]
  by_cases hj : j = i
  · subst hj
    rw [Function.update_same, hp]
    simp [Phase.isFinished]
  · rw [Function.update_noteq hj]

lemma doneSet_run {n : Nat} (s : RegState n) (i : Fin n) (r : Option Nat)
    (hp : s.phase i = .critical) (l : Option (Fin n)) (ms : List (String × Nat)) (c : Nat) :
    doneSet (⟨l, ms, c, Function.update s.phase i (.finished r)⟩ : RegState n) =
      insert i (doneSet s) ∧ i ∉ doneSet s := by
  constructor
  · apply Finset.ext
    intro j
    simp only [doneSet, Finset.mem_filter, Finset.mem_univ, true_and, Finset.mem_insert]
    by_cases hj : j = i
    · subst hj
      rw [Function.update_same]
      simp [Phase.isFinished]
    · rw [Function.update_noteq hj]
      simp [hj]
  · simp only [doneSet, Finset.mem_filter, Finset.mem_univ, true_and, hp]
    simp [Phase.isFinished]

/-- Inductive invariant of the N-caller system: before any caller finishes,
the store is empty and no load has happened; once the first caller has run,
either the store holds the (successfully) loaded entry, exactly one
`_load_model` invocation has occurred, and every finished caller got the
loaded handle — or, when both load attempts fail, the store stays empty and
every finished caller performed its own `_load_model` invocation and got
`None`. -/
def RegInv (env : RegistryEnv) (task : String) {n : Nat} (s : RegState n) : Prop :=
  (∀ h, (load_model env ([] : List (String × Nat)) task).lookup task = some h →
     (((s.models = [] ∧ s.load_count = 0 ∧ doneSet s = ∅) ∨
       (s.models = load_model env ([] : List (String × Nat)) task ∧
        s.load_count = 1 ∧ doneSet s ≠ ∅)) ∧
      ∀ i r, s.phase i = .finished r → r = some h)) ∧
  ((load_model env ([] : List (String × Nat)) task).lookup task = none →
     (s.models = [] ∧ s.load_count = (doneSet s).card ∧
      ∀ i r, s.phase i = .finished r → r = none))

lemma regInv_init (env : RegistryEnv) (task : String) (n : Nat) :
    RegInv env task (RegState.init n) := by
  have hd : doneSet (RegState.init n) = ∅ := by
    apply Finset.ext
    intro j
    simp [doneSet, RegState.init, Phase.isFinished]
  constructor
  · intro h _
    refine ⟨Or.inl ⟨rfl, rfl, hd⟩, ?_⟩
    intro i r hir
    cases hir
  · intro _
    refine ⟨rfl, by rw [hd]; rfl, ?_⟩
    intro i r hir
    cases hir

lemma regInv_step (env : RegistryEnv) (task : String) {n : Nat} {s t : RegState n}
    (hstep : RegStep env task s t) (hi : RegInv env task s) : RegInv env task t := by
  cases hstep with
  | acquire i s hp hl =>
    have hds := doneSet_acquire s i hp
    constructor
    · intro h hlook
      obtain ⟨hdisj, hres⟩ := hi.1 h hlook
      constructor
      · rcases hdisj with ⟨h1, h2, h3⟩ | ⟨h1, h2, h3⟩
        · exact Or.inl ⟨h1, h2, by rw [hds]; exact h3⟩
        · exact Or.inr ⟨h1, h2, by rw [hds]; exact h3⟩
      · intro j r hj
        replace hj : Function.update s.phase i Phase.critical j = Phase.finished r := hj
        by_cases hji : j = i
        · subst hji
          rw [Function.update_same] at hj
          cases hj
        · rw [Function.update_noteq hji] at hj
          exact hres j r hj
    · intro hlook
      obtain ⟨h1, h2, h3⟩ := hi.2 hlook
      refine ⟨h1, by rw [hds]; exact h2, ?_⟩
      intro j r hj
      replace hj : Function.update s.phase i Phase.critical j = Phase.finished r := hj
      by_cases hji : j = i
      · subst hji
        rw [Function.update_same] at hj
        cases hj
      · rw [Function.update_noteq hji] at hj
        exact h3 j r hj
  | run i s hp hl =>
    obtain ⟨hds, hinot⟩ := doneSet_run s i (get_model env s.models task).2 hp none
      (get_model env s.models task).1 (s.load_count + load_invocations s.models task)
    constructor
    · intro h hlook
      obtain ⟨hdisj, hres⟩ := hi.1 h hlook
      rcases hdisj with ⟨h1, h2, h3⟩ | ⟨h1, h2, h3⟩
      · -- first caller to run: the store is empty, it loads
        have hlk : List.lookup task s.models = none := by rw [h1]; rfl
        have hgm : get_model env s.models task =
            (load_model env ([] : List (String × Nat)) task,
             (load_model env ([] : List (String × Nat)) task).lookup task) := by
          rw [get_model_of_lookup_none hlk, h1]
        have hinv1 : load_invocations s.models task = 1 := load_invocations_of_none hlk
        constructor
        · refine Or.inr ⟨?_, ?_, ?_⟩
          · show (get_model env s.models task).1 = _
            rw [hgm]
          · show s.load_count + load_invocations s.models task = 1
            rw [h2, hinv1]
          · show doneSet _ ≠ ∅
            rw [hds]
            simp
        · intro j r hj
          replace hj : Function.update s.phase i
              (Phase.finished (get_model env s.models task).2) j = Phase.finished r := hj
          by_cases hji : j = i
          · subst hji
            rw [Function.update_same] at hj
            injection hj with hj
            rw [← hj, hgm, hlook]
          · rw [Function.update_noteq hji] at hj
            exact hres j r hj
      · -- a later caller: the entry is installed, no load happens
        have hlk : List.lookup task s.models = some h := by rw [h1]; exact hlook
        have hgm : get_model env s.models task = (s.models, some h) :=
          get_model_of_lookup_some hlk
        have hinv0 : load_invocations s.models task = 0 := load_invocations_of_some hlk
        constructor
        · refine Or.inr ⟨?_, ?_, ?_⟩
          · show (get_model env s.models task).1 = _
            rw [hgm, h1]
          · show s.load_count + load_invocations s.models task = 1
            rw [h2, hinv0]
          · show doneSet _ ≠ ∅
            rw [hds]
            simp
        · intro j r hj
          replace hj : Function.update s.phase i
              (Phase.finished (get_model env s.models task).2) j = Phase.finished r := hj
          by_cases hji : j = i
          · subst hji
            rw [Function.update_same] at hj
            injection hj with hj
            rw [← hj, hgm]
          · rw [Function.update_noteq hji] at hj
            exact hres j r hj
    · intro hlook
      obtain ⟨h1, h2, h3⟩ := hi.2 hlook
      have hle : load_model env ([] : List (String × Nat)) task = [] :=
        lookup_load_model_empty_none hlook
      have hlk : List.lookup task s.models = none := by rw [h1]; rfl
      have hgm : get_model env s.models task = ([], none) := by
        rw [get_model_of_lookup_none hlk, h1, hle]
        rfl
      have hinv1 : load_invocations s.models task = 1 := load_invocations_of_none hlk
      refine ⟨?_, ?_, ?_⟩
      · show (get_model env s.models task).1 = []
        rw [hgm]
      · show s.load_count + load_invocations s.models task = (doneSet _).card
        rw [hds, Finset.card_insert_of_not_mem hinot, h2, hinv1]
      · intro j r hj
        replace hj : Function.update s.phase i
            (Phase.finished (get_model env s.models task).2) j = Phase.finished r := hj
        by_cases hji : j = i
        · subst hji
          rw [Function.update_same] at hj
          injection hj with hj
          rw [← hj, hgm]
        · rw [Function.update_noteq hji] at hj
          exact h3 j r hj

lemma regInv_reaches (env : RegistryEnv) (task : String) {n : Nat} {s : RegState n}
    (h : RegReaches env task (RegState.init n) s) : RegInv env task s := by
  induction h with
  | refl => exact regInv_init env task n
  | tail _ hbc ih => exact regInv_step env task hbc ih

/-- C1 amended: in any interleaved execution in which all N concurrent
first-time callers of `get_model (task)` have returned, if the (first)
`_load_model` run installs a model — its own internal default-artifact retry
included — then exactly one `_load_model` invocation occurred and every
caller got that same handle; but if `_load_model` installs nothing (both
load attempts raise), the failure is not cached and every caller performed
its own `_load_model` invocation, all receiving `None`. -/
theorem c1_single_load (env : RegistryEnv) (task : String) {n : Nat} (s : RegState n)
    (hr : RegReaches env task (RegState.init n) s) (hd : AllDone s) :
    (∀ h, (load_model env ([] : List (String × Nat)) task).lookup task = some h →
       (0 < n → s.load_count = 1) ∧ ∀ i, s.phase i = .finished (some h)) ∧
    ((load_model env ([] : List (String × Nat)) task).lookup task = none →
       s.load_count = n ∧ ∀ i, s.phase i = .finished none) := by
  have hinv := regInv_reaches env task hr
  have hfin : ∀ i : Fin n, ∃ r, s.phase i = .finished r := by
    intro i
    exact isFinished_iff.mp (hd i)
  constructor
  · intro h hlook
    obtain ⟨hdisj, hres⟩ := hinv.1 h hlook
    constructor
    · intro hn
      rcases hdisj with ⟨_, _, h3⟩ | ⟨_, h2, _⟩
      · exfalso
        obtain ⟨r, hr0⟩ := hfin ⟨0, hn⟩
        have : (⟨0, hn⟩ : Fin n) ∈ doneSet s := by
          simp only [doneSet, Finset.mem_filter, Finset.mem_univ, true_and, hr0]
          rfl
        rw [h3] at this
        exact absurd this (Finset.not_mem_empty _)
      · exact h2
    · intro i
      obtain ⟨r, hri⟩ := hfin i
      rw [hri, hres i r hri]
  · intro hlook
    obtain ⟨_, h2, h3⟩ := hinv.2 hlook
    have hduniv : doneSet s = Finset.univ := by
      apply Finset.ext
      intro j
      simp only [doneSet, Finset.mem_filter, Finset.mem_univ, true_and, iff_true]
      exact hd j
    constructor
    · rw [h2, hduniv, Finset.card_univ, Fintype.card_fin]
    · intro i
      obtain ⟨r, hri⟩ := hfin i
      rw [hri, h3 i r hri]

/-- Environment of the C1 counterexample: no configured paths and a loader
that always raises (both load attempts of every `_load_model` call fail). -/
def c1_cex_env : RegistryEnv := ⟨fun _ => none, fun _ => false, fun _ => none⟩

/-- Counterexample trace, after caller 0 acquires the lock. -/
def c1_cex_s1 : RegState 2 :=
  ⟨some 0, [], 0, Function.update (RegState.init 2).phase 0 .critical⟩

/-- Counterexample trace, after caller 0 runs `get_model` (one failed
`_load_model` invocation) and releases. -/
def c1_cex_s2 : RegState 2 :=
  ⟨none, [], 1, Function.update c1_cex_s1.phase 0 (.finished none)⟩

/-- Counterexample trace, after caller 1 acquires the lock. -/
def c1_cex_s3 : RegState 2 :=
  ⟨some 1, [], 1, Function.update c1_cex_s2.phase 1 .critical⟩

/-- Counterexample trace, after caller 1 runs `get_model`: a second
`_load_model` invocation. -/
def c1_cex_final : RegState 2 :=
  ⟨none, [], 2, Function.update c1_cex_s3.phase 1 (.finished none)⟩

/-- C1 counterexample: two concurrent first-time callers with a failing
loader reach a state where both have returned (with `None`) after **two**
`_load_model` invocations — the second caller does not receive the
in-flight load's failure, it starts its own load, refuting "exactly one
underlying model load occurs". -/
theorem c1_counterexample :
    RegReaches c1_cex_env "detect" (RegState.init 2) c1_cex_final ∧
    c1_cex_final.phase 0 = .finished none ∧
    c1_cex_final.phase 1 = .finished none ∧
    AllDone c1_cex_final ∧
    c1_cex_final.load_count = 2 ∧ c1_cex_final.load_count ≠ 1 := by
  refine ⟨?_, rfl, rfl, ?_, rfl, by decide⟩
  · have step1 : RegStep c1_cex_env "detect" (RegState.init 2) c1_cex_s1 :=
      RegStep.acquire 0 (RegState.init 2) rfl rfl
    have step2 : RegStep c1_cex_env "detect" c1_cex_s1 c1_cex_s2 :=
      RegStep.run 0 c1_cex_s1 rfl rfl
    have step3 : RegStep c1_cex_env "detect" c1_cex_s2 c1_cex_s3 :=
      RegStep.acquire 1 c1_cex_s2 rfl rfl
    have step4 : RegStep c1_cex_env "detect" c1_cex_s3 c1_cex_final :=
      RegStep.run 1 c1_cex_s3 rfl rfl
    exact Relation.ReflTransGen.tail (Relation.ReflTransGen.tail
      (Relation.ReflTransGen.tail (Relation.ReflTransGen.single step1) step2) step3) step4
  · intro i
    fin_cases i <;> rfl

/-- Environment of the C1 witness: the loader succeeds with handle 7. -/
def c1_wit_env : RegistryEnv := ⟨fun _ => none, fun _ => false, fun _ => some 7⟩

/-- Witness trace, after caller 0 acquires the lock. -/
def c1_wit_s1 : RegState 2 :=
  ⟨some 0, [], 0, Function.update (RegState.init 2).phase 0 .critical⟩

/-- Witness trace, after caller 0 loads and installs handle 7. -/
def c1_wit_s2 : RegState 2 :=
  ⟨none, [("detect", 7)], 1, Function.update c1_wit_s1.phase 0 (.finished (some 7))⟩

/-- Witness trace, after caller 1 acquires the lock. -/
def c1_wit_s3 : RegState 2 :=
  ⟨some 1, [("detect", 7)], 1, Function.update c1_wit_s2.phase 1 .critical⟩

/-- Witness trace, after caller 1 finds the installed handle (no load). -/
def c1_wit_final : RegState 2 :=
  ⟨none, [("detect", 7)], 1, Function.update c1_wit_s3.phase 1 (.finished (some 7))⟩

/-- C1 witness: on the successful-load side, a concrete two-caller execution
reaches an all-done state with exactly one load and both callers holding the
same handle. -/
theorem c1_single_load_witness :
    c1_wit_final.load_count = 1 ∧
    c1_wit_final.phase 0 = .finished (some 7) ∧
    c1_wit_final.phase 1 = .finished (some 7) := by
  have step1 : RegStep c1_wit_env "detect" (RegState.init 2) c1_wit_s1 :=
    RegStep.acquire 0 (RegState.init 2) rfl rfl
  have step2 : RegStep c1_wit_env "detect" c1_wit_s1 c1_wit_s2 :=
    RegStep.run 0 c1_wit_s1 rfl rfl
  have step3 : RegStep c1_wit_env "detect" c1_wit_s2 c1_wit_s3 :=
    RegStep.acquire 1 c1_wit_s2 rfl rfl
  have step4 : RegStep c1_wit_env "detect" c1_wit_s3 c1_wit_final :=
    RegStep.run 1 c1_wit_s3 rfl rfl
  have hreach : RegReaches c1_wit_env "detect" (RegState.init 2) c1_wit_final :=
    Relation.ReflTransGen.tail (Relation.ReflTransGen.tail
      (Relation.ReflTransGen.tail (Relation.ReflTransGen.single step1) step2) step3) step4
  have hdone : AllDone c1_wit_final := by
    intro i
    fin_cases i <;> rfl
  have h := (c1_single_load c1_wit_env "detect" c1_wit_final hreach hdone).1 7 rfl
  exact ⟨h.1 (by omega), h.2 0, h.2 1⟩

end Glosentra
